import Mathlib

/-!
Verification of the tensor ICP registration core
(`cpp/open3d/t/pipelines/registration/Registration.cpp`).

The embedding models the C++ pipeline over exact rationals:

* a 3-D point is a triple of rationals; a point cloud carries its points
  together with the device and dtype tags of its points tensor;
* the 4x4 transformation tensor carries shape / device / dtype metadata
  plus its matrix of entries, so the `AssertShape` / `AssertDevice` /
  `AssertDtype` preconditions of the source are faithful checks;
* floating-point values computed by the code (fitness, squared error)
  are modelled as exact rationals; an IEEE NaN produced by the code
  (the `0.0f / 0.0f` division when no correspondence was selected) is
  modelled as `Option.none`;
* `inlier_rmse_` is `sqrt(squared_error / matched_count)`; the model
  stores the radicand `squared_error / matched_count` exactly
  (field `inlier_rmse_sq`), and real-valued statements about the rmse go
  through `Real.sqrt` of that stored radicand.
-/

namespace Open3D

/-- Numeric precision tag of a tensor (`core::Dtype`). -/
inductive Dtype where
  | float32
  | float64
  | int64
deriving DecidableEq

/-- Compute device tag (`core::Device`). -/
inductive Device where
  | cpu
  | cuda (index : Nat)
deriving DecidableEq

/-- A 3-D point with exact rational coordinates. -/
structure Pt where
  x : ℚ
  y : ℚ
  z : ℚ
deriving DecidableEq

/-- A 4x4 matrix of rationals, entry `aij` is row `i`, column `j`. -/
structure Mat4 where
  a00 : ℚ
  a01 : ℚ
  a02 : ℚ
  a03 : ℚ
  a10 : ℚ
  a11 : ℚ
  a12 : ℚ
  a13 : ℚ
  a20 : ℚ
  a21 : ℚ
  a22 : ℚ
  a23 : ℚ
  a30 : ℚ
  a31 : ℚ
  a32 : ℚ
  a33 : ℚ
deriving DecidableEq

/-- The 4x4 identity matrix. -/
def idMat4 : Mat4 :=
  ⟨1, 0, 0, 0, 0, 1, 0, 0, 0, 0, 1, 0, 0, 0, 0, 1⟩

/-- Matrix product `a * b` (`Tensor::Matmul`): entry `ij` is `sum_k a_ik * b_kj`. -/
def matMul (a b : Mat4) : Mat4 where
  a00 := a.a00 * b.a00 + a.a01 * b.a10 + a.a02 * b.a20 + a.a03 * b.a30
  a01 := a.a00 * b.a01 + a.a01 * b.a11 + a.a02 * b.a21 + a.a03 * b.a31
  a02 := a.a00 * b.a02 + a.a01 * b.a12 + a.a02 * b.a22 + a.a03 * b.a32
  a03 := a.a00 * b.a03 + a.a01 * b.a13 + a.a02 * b.a23 + a.a03 * b.a33
  a10 := a.a10 * b.a00 + a.a11 * b.a10 + a.a12 * b.a20 + a.a13 * b.a30
  a11 := a.a10 * b.a01 + a.a11 * b.a11 + a.a12 * b.a21 + a.a13 * b.a31
  a12 := a.a10 * b.a02 + a.a11 * b.a12 + a.a12 * b.a22 + a.a13 * b.a32
  a13 := a.a10 * b.a03 + a.a11 * b.a13 + a.a12 * b.a23 + a.a13 * b.a33
  a20 := a.a20 * b.a00 + a.a21 * b.a10 + a.a22 * b.a20 + a.a23 * b.a30
  a21 := a.a20 * b.a01 + a.a21 * b.a11 + a.a22 * b.a21 + a.a23 * b.a31
  a22 := a.a20 * b.a02 + a.a21 * b.a12 + a.a22 * b.a22 + a.a23 * b.a32
  a23 := a.a20 * b.a03 + a.a21 * b.a13 + a.a22 * b.a23 + a.a23 * b.a33
  a30 := a.a30 * b.a00 + a.a31 * b.a10 + a.a32 * b.a20 + a.a33 * b.a30
  a31 := a.a30 * b.a01 + a.a31 * b.a11 + a.a32 * b.a21 + a.a33 * b.a31
  a32 := a.a30 * b.a02 + a.a31 * b.a12 + a.a32 * b.a22 + a.a33 * b.a32
  a33 := a.a30 * b.a03 + a.a31 * b.a13 + a.a32 * b.a23 + a.a33 * b.a33

/-- Application of a homogeneous rigid 4x4 transform to a 3-D point
(`PointCloud::Transform`): rotation rows 0..2 applied to `(x, y, z)` plus
the translation column. -/
def transformPt (t : Mat4) (p : Pt) : Pt where
  x := t.a00 * p.x + t.a01 * p.y + t.a02 * p.z + t.a03
  y := t.a10 * p.x + t.a11 * p.y + t.a12 * p.z + t.a13
  z := t.a20 * p.x + t.a21 * p.y + t.a22 * p.z + t.a23

/-- A point cloud (`t::geometry::PointCloud`): an ordered list of points with
the device and dtype tags of its points tensor. -/
structure PointCloud where
  points : List Pt
  device : Device
  dtype : Dtype
deriving DecidableEq

/-- In-place `PointCloud::Transform` (applied to a copy in the source code):
every point is transformed, device and dtype are untouched. -/
def transformPC (t : Mat4) (pc : PointCloud) : PointCloud :=
  { pc with points := pc.points.map (transformPt t) }

/-- The 4x4 transformation tensor (`core::Tensor`): shape, device and dtype
metadata (checked by the `Assert*` calls of the source) plus its entries. -/
structure CoreTensor where
  shape : List Nat
  device : Device
  dtype : Dtype
  mat : Mat4
deriving DecidableEq

/-- Matmul of an (assumed well-formed) estimator update onto the running
transformation tensor: `update.Matmul(transformation)`; metadata is kept. -/
def matmulT (update : Mat4) (t : CoreTensor) : CoreTensor :=
  { t with mat := matMul update t.mat }

/-- Fatal errors raised by the precondition checks
(`LogError` / `AssertShape` / `AssertDevice` / `AssertDtype`). -/
inductive RegError where
  | dtypeMismatch
  | deviceMismatch
  | shapeMismatch
  | indexNotSet
deriving DecidableEq

/-- Squared Euclidean distance between two points. -/
def sqDist (p q : Pt) : ℚ :=
  (p.x - q.x) * (p.x - q.x) + (p.y - q.y) * (p.y - q.y) + (p.z - q.z) * (p.z - q.z)

/-- Nearest-neighbor scan (the external `NearestNeighborSearch` collaborator,
modelled as a linear scan over the built target points, numbered from `i`):
returns the position and squared distance of the closest target point,
preferring the lowest position on ties; `none` on an empty target. -/
def nnFrom (q : Pt) : Nat → List Pt → Option (Nat × ℚ)
  | _, [] => none
  | i, p :: ps =>
    match nnFrom q (i + 1) ps with
    | none => some (i, sqDist q p)
    | some (j, dj) => if sqDist q p ≤ dj then some (i, sqDist q p) else some (j, dj)

/-- Single-query nearest-neighbor search over the target index: the nearest
target index and its squared distance, or the sentinel `(-1, 0)` when the
target is empty. -/
def nnSearchList (target : List Pt) (q : Pt) : ℤ × ℚ :=
  match nnFrom q 0 target with
  | none => (-1, 0)
  | some (i, d) => ((i : ℤ), d)

/-- Single-query `HybridSearch` (radius-constrained nearest neighbor, §4.1 of
the spec): the nearest target index with its squared distance when that
squared distance is within `radiusSq`, the sentinel `(-1, 0)` otherwise. -/
def hybridSearchOne (target : List Pt) (radiusSq : ℚ) (q : Pt) : ℤ × ℚ :=
  let r := nnSearchList target q
  if r.1 ≠ -1 ∧ r.2 ≤ radiusSq then r else (-1, 0)

/-- Batched `HybridSearch` over all source points (`target_nns.HybridSearch`). -/
def hybridNNs (source target : List Pt) (radiusSq : ℚ) : List (ℤ × ℚ) :=
  source.map (hybridSearchOne target radiusSq)

/-- Correspondence mask of the hybrid path:
`result_nns.first.Ne(-1)` reshaped to one flag per source point. -/
def hybridMask (source target : List Pt) (radiusSq : ℚ) : List Bool :=
  (hybridNNs source target radiusSq).map (fun x => decide (x.1 ≠ -1))

/-- Correspondence target indices of the hybrid path:
`result_nns.first.IndexGet({mask})`, i.e. the returned indices gathered at
the true positions of the mask, in source order. -/
def hybridSet (source target : List Pt) (radiusSq : ℚ) : List ℤ :=
  ((hybridNNs source target radiusSq).filter (fun x => decide (x.1 ≠ -1))).map (fun x => x.1)

/-- Sum of the squared distances gathered at the selected correspondences
(`dist_select.Sum({0})` of the hybrid path). -/
def hybridSqError (source target : List Pt) (radiusSq : ℚ) : ℚ :=
  (((hybridNNs source target radiusSq).filter (fun x => decide (x.1 ≠ -1))).map
    (fun x => x.2)).sum

/-- Result of a correspondence evaluation (`RegistrationResult`).
Floating-point fields are exact rationals; `none` models an IEEE NaN.
`inlier_rmse_sq` stores the radicand of `inlier_rmse_` exactly, so
`inlier_rmse_ = sqrt(inlier_rmse_sq)`; it is `none` exactly when the code
computes the NaN `0.0f / 0.0f` (no selected correspondence). -/
structure RegistrationResult where
  transformation : CoreTensor
  correspondence_select_bool : List Bool
  correspondence_set : List ℤ
  fitness : Option ℚ
  inlier_rmse_sq : Option ℚ
deriving DecidableEq

/-- Modelled from the spec: the `RegistrationResult(transformation)`
constructor is declared in `Registration.h`, which is not part of the
inspected sources. Following §4.2 of the spec, the degenerate result carries
the given transformation unchanged, an all-false mask (one flag per source
point), empty indices, `fitness = 0` and `inlier_rmse = 0`. -/
def RegistrationResult.init (sourceCount : Nat) (t : CoreTensor) : RegistrationResult where
  transformation := t
  correspondence_select_bool := List.replicate sourceCount false
  correspondence_set := []
  fitness := some 0
  inlier_rmse_sq := some 0

/-- Instrumentation: number of index builds (`HybridIndex()` calls) and
batched nearest-neighbor queries (`HybridSearch` calls) performed. -/
structure SearchStats where
  indexBuilds : Nat
  searches : Nat
deriving DecidableEq

/-- Precondition checks shared by `GetCorrespondencesFromKNNSearch`,
`GetCorrespondencesFromHybridSearch`, `GetRegistrationResultAndCorrespondences`
and `EvaluateRegistration` (source lines 46-57, 102-113, 166-177, 196-207),
in source order: source dtype, target dtype, device equality, transformation
shape, transformation device, transformation dtype. The first failing check
aborts with its fatal error. -/
def checkInputs (source target : PointCloud) (t : CoreTensor) : Option RegError :=
  if source.dtype ≠ Dtype.float32 then some RegError.dtypeMismatch
  else if target.dtype ≠ Dtype.float32 then some RegError.dtypeMismatch
  else if target.device ≠ source.device then some RegError.deviceMismatch
  else if t.shape ≠ [4, 4] then some RegError.shapeMismatch
  else if t.device ≠ source.device then some RegError.deviceMismatch
  else if t.dtype ≠ Dtype.float32 then some RegError.dtypeMismatch
  else none

/-- Precondition checks of `RegistrationICP` (source lines 225-236): same
checks, but on the `init` tensor the order is shape, dtype, device. -/
def checkInputsICP (source target : PointCloud) (t : CoreTensor) : Option RegError :=
  if source.dtype ≠ Dtype.float32 then some RegError.dtypeMismatch
  else if target.dtype ≠ Dtype.float32 then some RegError.dtypeMismatch
  else if target.device ≠ source.device then some RegError.deviceMismatch
  else if t.shape ≠ [4, 4] then some RegError.shapeMismatch
  else if t.dtype ≠ Dtype.float32 then some RegError.dtypeMismatch
  else if t.device ≠ source.device then some RegError.deviceMismatch
  else none

/-- Post-check body of `GetCorrespondencesFromHybridSearch` (source lines
115-154): short-circuit on a non-positive threshold (before `HybridIndex()`
is called, hence zero builds and zero searches); otherwise square the
threshold, run the batched hybrid search (one build, one batched query),
select where the index is not the sentinel `-1`, and compute
`fitness = matched / source_count` and the rmse radicand
`squared_error / matched`, each `none` (NaN) when its divisor is zero. -/
def hybridCore (source target : PointCloud) (maxDist : ℚ) (t : CoreTensor) :
    RegistrationResult × SearchStats :=
  if maxDist ≤ 0 then (RegistrationResult.init source.points.length t, ⟨0, 0⟩)
  else
    let radiusSq := maxDist * maxDist
    let mask := hybridMask source.points target.points radiusSq
    let set := hybridSet source.points target.points radiusSq
    let sqErr := hybridSqError source.points target.points radiusSq
    ({ transformation := t
       correspondence_select_bool := mask
       correspondence_set := set
       fitness :=
         if mask.length = 0 then none else some ((set.length : ℚ) / (mask.length : ℚ))
       inlier_rmse_sq :=
         if set.length = 0 then none else some (sqErr / (set.length : ℚ)) },
     ⟨1, 1⟩)

/-- The correspondence evaluator `GetCorrespondencesFromHybridSearch`
(source lines 96-155): precondition checks, then the hybrid-search body.
The pair's second component counts the search work actually performed; a
failed check aborts before any of it. -/
def GetCorrespondencesFromHybridSearch (source target : PointCloud) (maxDist : ℚ)
    (transformation : CoreTensor) : Except RegError RegistrationResult × SearchStats :=
  match checkInputs source target transformation with
  | some e => (Except.error e, ⟨0, 0⟩)
  | none =>
    let rc := hybridCore source target maxDist transformation
    (Except.ok rc.1, rc.2)

/-- Correspondence selection of the dead `GetCorrespondencesFromKNNSearch`
strategy (source lines 73-83): batched 1-nearest-neighbor search, acceptance
where the returned linear distance is at most `maxDist`. `KnnSearch` returns
linear (not squared) distances; the comparison `dist <= maxDist` between
nonnegative quantities is carried out on squared distances as
`0 <= maxDist AND dist^2 <= maxDist^2`, which is equivalent. The metrics of
this dead path are not modelled; no claim concerns them. -/
def knnAccept (sqd maxDist : ℚ) : Bool :=
  decide (0 ≤ maxDist) && decide (sqd ≤ maxDist * maxDist)

/-- Batched `KnnSearch` over all source points (`target_nns.KnnSearch`). -/
def knnNNs (source target : List Pt) : List (ℤ × ℚ) :=
  source.map (nnSearchList target)

/-- Correspondence mask of the KNN path:
`result_nns.second.Le(max_correspondence_distance)` reshaped. -/
def knnMask (source target : List Pt) (maxDist : ℚ) : List Bool :=
  (knnNNs source target).map (fun x => knnAccept x.2 maxDist)

/-- Correspondence target indices of the KNN path:
`result_nns.first.IndexGet({mask})`. -/
def knnSet (source target : List Pt) (maxDist : ℚ) : List ℤ :=
  ((knnNNs source target).filter (fun x => knnAccept x.2 maxDist)).map (fun x => x.1)

/-- The wrapper `GetRegistrationResultAndCorrespondences` (source lines
157-190): the same precondition checks, then strategy dispatch on the local
`bool condition = false`, whose KNN branch is dead code; the live branch is
the hybrid evaluator. -/
def GetRegistrationResultAndCorrespondences (source target : PointCloud) (maxDist : ℚ)
    (transformation : CoreTensor) : Except RegError RegistrationResult × SearchStats :=
  match checkInputs source target transformation with
  | some e => (Except.error e, ⟨0, 0⟩)
  | none => GetCorrespondencesFromHybridSearch source target maxDist transformation

/-- `EvaluateRegistration` (source lines 192-217): precondition checks, the
nearest-neighbor index over the target points, a transformed working copy of
the source, then the wrapper evaluation with the same transformation. -/
def EvaluateRegistration (source target : PointCloud) (maxDist : ℚ)
    (transformation : CoreTensor) : Except RegError RegistrationResult × SearchStats :=
  match checkInputs source target transformation with
  | some e => (Except.error e, ⟨0, 0⟩)
  | none =>
    GetRegistrationResultAndCorrespondences (transformPC transformation.mat source) target
      maxDist transformation

/-- ICP convergence criteria (`ICPConvergenceCriteria`). `max_iteration_` is
an `int` used only as the upper bound of `for (int i = 0; i < n; i++)`, so a
natural number models it. -/
structure ICPConvergenceCriteria where
  relative_fitness : ℚ
  relative_rmse : ℚ
  max_iteration : Nat

/-- Decides `sqrt a < sqrt b + t` for nonnegative rationals `a`, `b`
(radicands are sums of squared distances divided by a count, hence
nonnegative) by the usual squaring case analysis, kept exact in ℚ. -/
def sqrtLtAdd (a b t : ℚ) : Bool :=
  if 0 ≤ t then
    if a - b - t * t < 0 then true
    else decide ((a - b - t * t) * (a - b - t * t) < 4 * (t * t) * b)
  else
    decide (0 < b - a - t * t) &&
      decide (4 * (t * t) * a < (b - a - t * t) * (b - a - t * t))

/-- Decides `|sqrt a - sqrt b| < t` for nonnegative rationals: the exact
form of the float comparison `std::abs(prev_rmse - cur_rmse) < t`, where the
stored values are the radicands of the two rmse values. -/
def absSqrtDiffLt (a b t : ℚ) : Bool :=
  sqrtLtAdd a b t && sqrtLtAdd b a t

/-- Float comparison `std::abs(prev.fitness_ - cur.fitness_) < t`; a NaN
operand (`none`) makes the comparison false, as in IEEE arithmetic. -/
def fitnessDeltaLt : Option ℚ → Option ℚ → ℚ → Bool
  | some a, some b, t => decide (|a - b| < t)
  | _, _, _ => false

/-- Float comparison `std::abs(prev.inlier_rmse_ - cur.inlier_rmse_) < t` on
the stored radicands; a NaN operand (`none`) makes the comparison false. -/
def rmseDeltaLt : Option ℚ → Option ℚ → ℚ → Bool
  | some a, some b, t => absSqrtDiffLt a b t
  | _, _, _ => false

/-- The conjunctive convergence test of the ICP loop (source lines 267-270):
break when both the fitness delta and the rmse delta are strictly below
their thresholds. -/
def convergenceTest (prev cur : RegistrationResult) (crit : ICPConvergenceCriteria) : Bool :=
  fitnessDeltaLt prev.fitness cur.fitness crit.relative_fitness &&
    rmseDeltaLt prev.inlier_rmse_sq cur.inlier_rmse_sq crit.relative_rmse

/-- The pluggable transformation estimator
(`TransformationEstimation::ComputeTransformation`, an external strategy):
from the working source, the target and the correspondence pair
`(select_bool, set)` it produces an incremental 4x4 update. -/
abbrev Estimator := PointCloud → PointCloud → List Bool × List ℤ → Mat4

/-- Loop state of `RegistrationICP`: the running cumulative transformation,
the working (already transformed) source cloud, the last evaluation result,
and instrumentation counters for evaluations and estimator invocations. The
`corres` pair passed to the estimator is always the mask/set pair of the
last result, as in the source (lines 250-251 and 265-266). -/
structure ICPState where
  transformation : CoreTensor
  src : PointCloud
  result : RegistrationResult
  evaluations : Nat
  estimatorCalls : Nat

/-- One iteration body of the ICP loop (source lines 253-272): compute the
incremental update from the current working source and correspondences,
left-compose it onto the running transformation
(`transformation = update.Matmul(transformation)`), apply it in place to the
working source (`source_transformed.Transform(update)`), then re-evaluate
through the checked wrapper. -/
def icpStepE (target : PointCloud) (maxDist : ℚ) (est : Estimator) (st : ICPState) :
    Except RegError ICPState :=
  let update := est st.src target
    (st.result.correspondence_select_bool, st.result.correspondence_set)
  let t' := matmulT update st.transformation
  let src' := transformPC update st.src
  match (GetRegistrationResultAndCorrespondences src' target maxDist t').1 with
  | Except.error e => Except.error e
  | Except.ok res => Except.ok ⟨t', src', res, st.evaluations + 1, st.estimatorCalls + 1⟩

/-- The ICP iteration loop (`for (int i = 0; i < criteria.max_iteration_; i++)`
with the conjunctive convergence break), with the remaining iteration budget
as fuel. -/
def icpLoopE (target : PointCloud) (maxDist : ℚ) (est : Estimator)
    (crit : ICPConvergenceCriteria) : Nat → ICPState → Except RegError ICPState
  | 0, st => Except.ok st
  | fuel + 1, st =>
    match icpStepE target maxDist est st with
    | Except.error e => Except.error e
    | Except.ok st' =>
      if convergenceTest st.result st'.result crit then Except.ok st'
      else icpLoopE target maxDist est crit fuel st'

/-- Instrumentation counters returned by the model of `RegistrationICP`:
correspondence evaluations and estimator invocations performed. -/
structure ICPStats where
  evaluations : Nat
  estimatorCalls : Nat
deriving DecidableEq

/-- `RegistrationICP` (source lines 219-275): precondition checks, the
transformed working copy of the source, the initial evaluation (through the
checked wrapper), then the convergence loop. The pair's second component
counts evaluations and estimator invocations; a failed check aborts with
zero of either. Either inner `error` branch is unreachable once the initial
checks pass (the checks only inspect metadata that the loop preserves), and
carries zero counters. -/
def RegistrationICP (source target : PointCloud) (maxDist : ℚ) (init : CoreTensor)
    (est : Estimator) (crit : ICPConvergenceCriteria) :
    Except RegError RegistrationResult × ICPStats :=
  match checkInputsICP source target init with
  | some e => (Except.error e, ⟨0, 0⟩)
  | none =>
    let src0 := transformPC init.mat source
    match (GetRegistrationResultAndCorrespondences src0 target maxDist init).1 with
    | Except.error e => (Except.error e, ⟨0, 0⟩)
    | Except.ok res0 =>
      match icpLoopE target maxDist est crit crit.max_iteration ⟨init, src0, res0, 1, 0⟩ with
      | Except.error e => (Except.error e, ⟨0, 0⟩)
      | Except.ok st => (Except.ok st.result, ⟨st.evaluations, st.estimatorCalls⟩)

/-- Pure form of one ICP iteration: identical to `icpStepE` except that the
(always passing, given valid metadata) re-checks of the wrapper are elided. -/
def icpStep (target : PointCloud) (maxDist : ℚ) (est : Estimator) (st : ICPState) : ICPState :=
  let update := est st.src target
    (st.result.correspondence_select_bool, st.result.correspondence_set)
  let t' := matmulT update st.transformation
  let src' := transformPC update st.src
  ⟨t', src', (hybridCore src' target maxDist t').1, st.evaluations + 1, st.estimatorCalls + 1⟩

/-- Pure form of the ICP loop, matching `icpLoopE` on valid inputs. -/
def icpLoopPure (target : PointCloud) (maxDist : ℚ) (est : Estimator)
    (crit : ICPConvergenceCriteria) : Nat → ICPState → ICPState
  | 0, st => st
  | fuel + 1, st =>
    let st' := icpStep target maxDist est st
    if convergenceTest st.result st'.result crit then st'
    else icpLoopPure target maxDist est crit fuel st'

/-- The loop state of `RegistrationICP` before the first iteration: the
initial transformation, the source transformed by it, and the initial
evaluation; one evaluation and no estimator invocation performed. -/
def icpInit (source target : PointCloud) (maxDist : ℚ) (init : CoreTensor) : ICPState :=
  ⟨init, transformPC init.mat source,
    (hybridCore (transformPC init.mat source) target maxDist init).1, 1, 0⟩

/-- Shared concrete fixture: a one-point Float32 CPU source cloud. -/
def wSrc : PointCloud :=
  ⟨[⟨0, 0, 0⟩], Device.cpu, Dtype.float32⟩

/-- Shared concrete fixture: a one-point Float32 CPU target cloud. -/
def wTgt : PointCloud :=
  ⟨[⟨0, 0, 0⟩], Device.cpu, Dtype.float32⟩

/-- Shared concrete fixture: a distant one-point Float32 CPU target cloud
(no target point within unit distance of the origin). -/
def wTgtFar : PointCloud :=
  ⟨[⟨10, 0, 0⟩], Device.cpu, Dtype.float32⟩

/-- Shared concrete fixture: a valid 4x4 Float32 CPU identity tensor. -/
def wT : CoreTensor :=
  ⟨[4, 4], Device.cpu, Dtype.float32, idMat4⟩

/-- Shared concrete fixture: an estimator strategy returning the identity
update. -/
def wEst : Estimator := fun _ _ _ => idMat4

/-- The precondition checks ignore the point data: transforming the clouds
or composing onto the tensor leaves every checked field unchanged. -/
theorem checkInputs_transform (u u' : Mat4) (pc tgt : PointCloud) (tr : CoreTensor) :
    checkInputs (transformPC u pc) tgt (matmulT u' tr) = checkInputs pc tgt tr := rfl

/-- The precondition checks ignore the point data of the source cloud. -/
theorem checkInputs_transform_src (u : Mat4) (pc tgt : PointCloud) (tr : CoreTensor) :
    checkInputs (transformPC u pc) tgt tr = checkInputs pc tgt tr := rfl

/-- When its precondition checks pass, the wrapper reduces to the
hybrid-search body. -/
theorem grac_of_checks {s t : PointCloud} {tr : CoreTensor} (d : ℚ)
    (h : checkInputs s t tr = none) :
    GetRegistrationResultAndCorrespondences s t d tr =
      (Except.ok (hybridCore s t d tr).1, (hybridCore s t d tr).2) := by
  unfold GetRegistrationResultAndCorrespondences GetCorrespondencesFromHybridSearch
  rw [h]

/-- With valid metadata the effectful iteration body never fails and equals
the pure one. -/
theorem icpStepE_eq {target : PointCloud} {st : ICPState} (maxDist : ℚ) (est : Estimator)
    (h : checkInputs st.src target st.transformation = none) :
    icpStepE target maxDist est st = Except.ok (icpStep target maxDist est st) := by
  simp only [icpStepE, icpStep]
  rw [grac_of_checks maxDist (by rw [checkInputs_transform]; exact h)]

/-- The iteration body preserves the metadata inspected by the checks. -/
theorem checkInputs_icpStep (target : PointCloud) (maxDist : ℚ) (est : Estimator)
    (st : ICPState) :
    checkInputs (icpStep target maxDist est st).src target
        (icpStep target maxDist est st).transformation =
      checkInputs st.src target st.transformation := rfl

/-- With valid metadata the effectful ICP loop never fails and equals the
pure loop. -/
theorem icpLoopE_eq {target : PointCloud} (maxDist : ℚ) (est : Estimator)
    (crit : ICPConvergenceCriteria) (fuel : Nat) (st : ICPState)
    (h : checkInputs st.src target st.transformation = none) :
    icpLoopE target maxDist est crit fuel st =
      Except.ok (icpLoopPure target maxDist est crit fuel st) := by
  induction fuel generalizing st with
  | zero => rfl
  | succ f ih =>
    unfold icpLoopE icpLoopPure
    rw [icpStepE_eq maxDist est h]
    by_cases hc : convergenceTest st.result (icpStep target maxDist est st).result crit
    · simp [hc]
    · simp only [hc, Bool.false_eq_true, if_false]
      exact ih _ (by rw [checkInputs_icpStep]; exact h)

/-- Passing the ICP-ordered checks implies passing the evaluator-ordered
checks: both demand exactly the same conditions. -/
theorem checkInputsICP_to_checkInputs {s t : PointCloud} {tr : CoreTensor}
    (h : checkInputsICP s t tr = none) : checkInputs s t tr = none := by
  unfold checkInputsICP at h
  unfold checkInputs
  split_ifs at h ⊢
  all_goals simp_all

/-- Pure characterization of `RegistrationICP` on valid inputs: the checks
pass, the run succeeds, and result and counters are those of the pure loop
started from the initial evaluation state. -/
theorem registrationICP_of_checks {source target : PointCloud} {init : CoreTensor}
    (maxDist : ℚ) (est : Estimator) (crit : ICPConvergenceCriteria)
    (h : checkInputsICP source target init = none) :
    RegistrationICP source target maxDist init est crit =
      (Except.ok (icpLoopPure target maxDist est crit crit.max_iteration
          (icpInit source target maxDist init)).result,
        ⟨(icpLoopPure target maxDist est crit crit.max_iteration
            (icpInit source target maxDist init)).evaluations,
          (icpLoopPure target maxDist est crit crit.max_iteration
            (icpInit source target maxDist init)).estimatorCalls⟩) := by
  have hc : checkInputs source target init = none := checkInputsICP_to_checkInputs h
  have hc0 : checkInputs (transformPC init.mat source) target init = none := by
    rw [checkInputs_transform_src]; exact hc
  unfold RegistrationICP
  rw [h]
  simp only [grac_of_checks maxDist hc0]
  rw [icpLoopE_eq maxDist est crit crit.max_iteration _ hc0]
  rfl

/-- Each iteration performs exactly one estimator invocation. -/
theorem icpStep_estCalls (target : PointCloud) (maxDist : ℚ) (est : Estimator) (st : ICPState) :
    (icpStep target maxDist est st).estimatorCalls = st.estimatorCalls + 1 := rfl

/-- The pure loop performs at most `fuel` estimator invocations. -/
theorem icpLoopPure_calls_le (target : PointCloud) (maxDist : ℚ) (est : Estimator)
    (crit : ICPConvergenceCriteria) (fuel : Nat) (st : ICPState) :
    (icpLoopPure target maxDist est crit fuel st).estimatorCalls ≤ st.estimatorCalls + fuel := by
  induction fuel generalizing st with
  | zero => simp [icpLoopPure]
  | succ f ih =>
    unfold icpLoopPure
    simp only []
    by_cases hc : convergenceTest st.result (icpStep target maxDist est st).result crit
    · simp only [hc, if_true, icpStep_estCalls]; omega
    · simp only [hc, Bool.false_eq_true, if_false]
      calc (icpLoopPure target maxDist est crit f (icpStep target maxDist est st)).estimatorCalls
          ≤ (icpStep target maxDist est st).estimatorCalls + f := ih _
        _ = st.estimatorCalls + (f + 1) := by rw [icpStep_estCalls]; omega

/-- The pure loop performs fewer than `fuel` estimator invocations exactly
when the conjunctive convergence test succeeds at some step early enough for
iterations to remain in the budget. -/
theorem icpLoopPure_calls_lt_iff (target : PointCloud) (maxDist : ℚ) (est : Estimator)
    (crit : ICPConvergenceCriteria) (fuel : Nat) (st : ICPState) :
    (icpLoopPure target maxDist est crit fuel st).estimatorCalls < st.estimatorCalls + fuel ↔
      ∃ k, k + 1 < fuel ∧
        convergenceTest ((icpStep target maxDist est)^[k] st).result
          ((icpStep target maxDist est)^[k + 1] st).result crit = true := by
  induction fuel generalizing st with
  | zero => simp [icpLoopPure]
  | succ f ih =>
    unfold icpLoopPure
    simp only []
    by_cases hc : convergenceTest st.result (icpStep target maxDist est st).result crit
    · simp only [hc, if_true, icpStep_estCalls]
      constructor
      · intro hlt
        refine ⟨0, by omega, ?_⟩
        simpa using hc
      · rintro ⟨k, hk, -⟩
        omega
    · simp only [hc, Bool.false_eq_true, if_false]
      rw [show st.estimatorCalls + (f + 1) = (icpStep target maxDist est st).estimatorCalls + f by
        rw [icpStep_estCalls]; omega]
      rw [ih]
      constructor
      · rintro ⟨k, hk, hconv⟩
        refine ⟨k + 1, by omega, ?_⟩
        rw [Function.iterate_succ_apply] at hconv ⊢
        rw [Function.iterate_succ_apply]
        exact hconv
      · rintro ⟨k, hk, hconv⟩
        cases k with
        | zero => simp at hconv; exact absurd hconv hc
        | succ k' =>
          refine ⟨k', by omega, ?_⟩
          rw [Function.iterate_succ_apply] at hconv
          rw [Function.iterate_succ_apply (icpStep target maxDist est) (k' + 1) st] at hconv
          exact hconv



/-- C1: a run of `RegistrationICP` with iteration budget `n` performs at
most `n` estimator updates, and performs fewer than `n` exactly when, after
an update with budget remaining, both the fitness delta and the rmse delta
are simultaneously strictly below their thresholds (the conjunctive test:
one delta alone below its threshold keeps iterating). -/
theorem registrationICP_budget_and_conjunctive_stop
    (source target : PointCloud) (maxDist : ℚ) (init : CoreTensor) (est : Estimator)
    (crit : ICPConvergenceCriteria)
    (h : checkInputsICP source target init = none) :
    (∃ r, (RegistrationICP source target maxDist init est crit).1 = Except.ok r) ∧
    (RegistrationICP source target maxDist init est crit).2.estimatorCalls ≤
      crit.max_iteration ∧
    ((RegistrationICP source target maxDist init est crit).2.estimatorCalls <
        crit.max_iteration ↔
      ∃ k, k + 1 < crit.max_iteration ∧
        fitnessDeltaLt
          ((icpStep target maxDist est)^[k] (icpInit source target maxDist init)).result.fitness
          ((icpStep target maxDist est)^[k + 1]
            (icpInit source target maxDist init)).result.fitness
          crit.relative_fitness = true ∧
        rmseDeltaLt
          ((icpStep target maxDist est)^[k]
            (icpInit source target maxDist init)).result.inlier_rmse_sq
          ((icpStep target maxDist est)^[k + 1]
            (icpInit source target maxDist init)).result.inlier_rmse_sq
          crit.relative_rmse = true) := by
  rw [registrationICP_of_checks maxDist est crit h]
  refine ⟨⟨_, rfl⟩, ?_, ?_⟩
  · have := icpLoopPure_calls_le target maxDist est crit crit.max_iteration
      (icpInit source target maxDist init)
    simpa [icpInit] using this
  · have := icpLoopPure_calls_lt_iff target maxDist est crit crit.max_iteration
      (icpInit source target maxDist init)
    simp only [icpInit] at this ⊢
    rw [Nat.zero_add] at this
    rw [this]
    constructor
    · rintro ⟨k, hk, hconv⟩
      refine ⟨k, hk, ?_⟩
      rw [Function.iterate_succ_apply] at hconv
      rw [Function.iterate_succ_apply]
      simpa [convergenceTest, Bool.and_eq_true] using hconv
    · rintro ⟨k, hk, hf, hr⟩
      refine ⟨k, hk, ?_⟩
      rw [Function.iterate_succ_apply] at hf hr
      simp [convergenceTest, Bool.and_eq_true, hf, hr]

theorem registrationICP_budget_and_conjunctive_stop_witness :
    checkInputsICP wSrc wTgt wT = none ∧
    ((∃ r, (RegistrationICP wSrc wTgt 1 wT wEst ⟨1, 1, 2⟩).1 = Except.ok r) ∧
      (RegistrationICP wSrc wTgt 1 wT wEst ⟨1, 1, 2⟩).2.estimatorCalls ≤ 2 ∧
      ((RegistrationICP wSrc wTgt 1 wT wEst ⟨1, 1, 2⟩).2.estimatorCalls < 2 ↔
        ∃ k, k + 1 < 2 ∧
          fitnessDeltaLt
            ((icpStep wTgt 1 wEst)^[k] (icpInit wSrc wTgt 1 wT)).result.fitness
            ((icpStep wTgt 1 wEst)^[k + 1] (icpInit wSrc wTgt 1 wT)).result.fitness 1 = true ∧
          rmseDeltaLt
            ((icpStep wTgt 1 wEst)^[k] (icpInit wSrc wTgt 1 wT)).result.inlier_rmse_sq
            ((icpStep wTgt 1 wEst)^[k + 1] (icpInit wSrc wTgt 1 wT)).result.inlier_rmse_sq
            1 = true)) :=
  ⟨by decide,
    registrationICP_budget_and_conjunctive_stop wSrc wTgt 1 wT wEst ⟨1, 1, 2⟩ (by decide)⟩



/-- C6: in every iteration of the ICP loop the incremental estimator update
is left-composed onto the running transform (`new = update * old`, in that
matrix-product order) and is applied in place to the already-transformed
working source cloud. -/
theorem registrationICP_update_left_composed (source target : PointCloud) (maxDist : ℚ)
    (init : CoreTensor) (est : Estimator) (k : Nat) :
    ((icpStep target maxDist est)^[k + 1]
        (icpInit source target maxDist init)).transformation.mat =
      matMul
        (est ((icpStep target maxDist est)^[k] (icpInit source target maxDist init)).src target
          (((icpStep target maxDist est)^[k]
              (icpInit source target maxDist init)).result.correspondence_select_bool,
            ((icpStep target maxDist est)^[k]
              (icpInit source target maxDist init)).result.correspondence_set))
        ((icpStep target maxDist est)^[k]
          (icpInit source target maxDist init)).transformation.mat ∧
    ((icpStep target maxDist est)^[k + 1] (icpInit source target maxDist init)).src.points =
      (((icpStep target maxDist est)^[k] (icpInit source target maxDist init)).src.points).map
        (transformPt
          (est ((icpStep target maxDist est)^[k] (icpInit source target maxDist init)).src target
            (((icpStep target maxDist est)^[k]
                (icpInit source target maxDist init)).result.correspondence_select_bool,
              ((icpStep target maxDist est)^[k]
                (icpInit source target maxDist init)).result.correspondence_set))) := by
  rw [Function.iterate_succ_apply']
  exact ⟨rfl, rfl⟩

/-- C7: with a zero iteration budget, `RegistrationICP` performs exactly one
correspondence evaluation and no estimator invocation, and the returned
result carries the supplied initial transformation. -/
theorem registrationICP_zero_budget (source target : PointCloud) (maxDist : ℚ)
    (init : CoreTensor) (est : Estimator) (crit : ICPConvergenceCriteria)
    (h : checkInputsICP source target init = none) (hn : crit.max_iteration = 0) :
    (RegistrationICP source target maxDist init est crit).2 = ⟨1, 0⟩ ∧
    ∃ r, (RegistrationICP source target maxDist init est crit).1 = Except.ok r ∧
      r.transformation = init := by
  rw [registrationICP_of_checks maxDist est crit h, hn]
  refine ⟨rfl, _, rfl, ?_⟩
  show ((hybridCore (transformPC init.mat source) target maxDist init).1).transformation = init
  unfold hybridCore
  split_ifs
  · rfl
  · rfl

theorem registrationICP_zero_budget_witness :
    checkInputsICP wSrc wTgt wT = none ∧
    ((RegistrationICP wSrc wTgt 1 wT wEst ⟨1, 1, 0⟩).2 = ⟨1, 0⟩ ∧
      ∃ r, (RegistrationICP wSrc wTgt 1 wT wEst ⟨1, 1, 0⟩).1 = Except.ok r ∧
        r.transformation = wT) :=
  ⟨by decide, registrationICP_zero_budget wSrc wTgt 1 wT wEst ⟨1, 1, 0⟩ (by decide) rfl⟩



/-- C3: an evaluator call with a non-positive correspondence threshold and
valid inputs short-circuits to the degenerate result — the given
transformation unchanged, an all-false mask of source length, empty indices,
fitness 0, rmse 0 — with zero index builds and zero searches performed. -/
theorem evaluator_degenerate_threshold (source target : PointCloud) (maxDist : ℚ)
    (t : CoreTensor) (h : checkInputs source target t = none) (hd : maxDist ≤ 0) :
    GetCorrespondencesFromHybridSearch source target maxDist t =
      (Except.ok
        { transformation := t
          correspondence_select_bool := List.replicate source.points.length false
          correspondence_set := []
          fitness := some 0
          inlier_rmse_sq := some 0 },
        ⟨0, 0⟩) := by
  unfold GetCorrespondencesFromHybridSearch
  rw [h]
  unfold hybridCore
  rw [if_pos hd]
  rfl

theorem evaluator_degenerate_threshold_witness :
    (checkInputs wSrc wTgt wT = none ∧ (0 : ℚ) ≤ 0) ∧
    GetCorrespondencesFromHybridSearch wSrc wTgt 0 wT =
      (Except.ok
        { transformation := wT
          correspondence_select_bool := List.replicate wSrc.points.length false
          correspondence_set := []
          fitness := some 0
          inlier_rmse_sq := some 0 },
        ⟨0, 0⟩) :=
  ⟨⟨by decide, le_refl 0⟩,
    evaluator_degenerate_threshold wSrc wTgt 0 wT (by decide) (le_refl 0)⟩

/-- C9: a device mismatch between source and target, a transformation tensor
whose shape is not 4x4, or a transformation whose device or precision
differs from the point clouds, makes both `EvaluateRegistration` and
`RegistrationICP` fail fatally with zero index builds, zero searches, zero
evaluations and zero estimator invocations — the fatal checks run before
any correspondence work. -/
theorem precondition_violation_rejected (source target : PointCloud) (maxDist : ℚ)
    (t : CoreTensor) (est : Estimator) (crit : ICPConvergenceCriteria)
    (h : target.device ≠ source.device ∨ t.shape ≠ [4, 4] ∨ t.device ≠ source.device ∨
      t.dtype ≠ source.dtype) :
    (∃ e, (EvaluateRegistration source target maxDist t).1 = Except.error e) ∧
    (EvaluateRegistration source target maxDist t).2 = ⟨0, 0⟩ ∧
    (∃ e, (RegistrationICP source target maxDist t est crit).1 = Except.error e) ∧
    (RegistrationICP source target maxDist t est crit).2 = ⟨0, 0⟩ := by
  have hcheck : ∃ e, checkInputs source target t = some e := by
    unfold checkInputs
    split_ifs with h1 h2 h3 h4 h5 h6
    any_goals exact ⟨_, rfl⟩
    simp_all
  have hcheckICP : ∃ e, checkInputsICP source target t = some e := by
    unfold checkInputsICP
    split_ifs with h1 h2 h3 h4 h5 h6
    any_goals exact ⟨_, rfl⟩
    simp_all
  obtain ⟨e, he⟩ := hcheck
  obtain ⟨e', he'⟩ := hcheckICP
  unfold EvaluateRegistration RegistrationICP
  rw [he, he']
  exact ⟨⟨e, rfl⟩, rfl, ⟨e', rfl⟩, rfl⟩

theorem precondition_violation_rejected_witness :
    (Device.cuda 0 ≠ Device.cpu ∨ ([4, 4] : List Nat) ≠ [4, 4] ∨ Device.cpu ≠ Device.cpu ∨
      Dtype.float32 ≠ Dtype.float32) ∧
    ((∃ e, (EvaluateRegistration wSrc ⟨[⟨0, 0, 0⟩], Device.cuda 0, Dtype.float32⟩ 1 wT).1 =
        Except.error e) ∧
      (EvaluateRegistration wSrc ⟨[⟨0, 0, 0⟩], Device.cuda 0, Dtype.float32⟩ 1 wT).2 = ⟨0, 0⟩ ∧
      (∃ e, (RegistrationICP wSrc ⟨[⟨0, 0, 0⟩], Device.cuda 0, Dtype.float32⟩ 1 wT wEst
          ⟨1, 1, 1⟩).1 = Except.error e) ∧
      (RegistrationICP wSrc ⟨[⟨0, 0, 0⟩], Device.cuda 0, Dtype.float32⟩ 1 wT wEst
        ⟨1, 1, 1⟩).2 = ⟨0, 0⟩) :=
  ⟨by decide,
    precondition_violation_rejected wSrc ⟨[⟨0, 0, 0⟩], Device.cuda 0, Dtype.float32⟩ 1 wT wEst
      ⟨1, 1, 1⟩ (by decide)⟩

/-- C10: any input whose source, target or transformation precision is not
exactly Float32 is fatally rejected by both public operations, even when
source, target and transformation all agree on device and on some other
precision — agreement alone is not sufficient. -/
theorem float32_precision_required (source target : PointCloud) (maxDist : ℚ)
    (t : CoreTensor) (est : Estimator) (crit : ICPConvergenceCriteria)
    (h : source.dtype ≠ Dtype.float32 ∨ target.dtype ≠ Dtype.float32 ∨
      t.dtype ≠ Dtype.float32) :
    (∃ e, (EvaluateRegistration source target maxDist t).1 = Except.error e) ∧
    (∃ e, (RegistrationICP source target maxDist t est crit).1 = Except.error e) := by
  have hcheck : ∃ e, checkInputs source target t = some e := by
    unfold checkInputs
    split_ifs with h1 h2 h3 h4 h5 h6
    any_goals exact ⟨_, rfl⟩
    simp_all
  have hcheckICP : ∃ e, checkInputsICP source target t = some e := by
    unfold checkInputsICP
    split_ifs with h1 h2 h3 h4 h5 h6
    any_goals exact ⟨_, rfl⟩
    simp_all
  obtain ⟨e, he⟩ := hcheck
  obtain ⟨e', he'⟩ := hcheckICP
  unfold EvaluateRegistration RegistrationICP
  rw [he, he']
  exact ⟨⟨e, rfl⟩, ⟨e', rfl⟩⟩

theorem float32_precision_required_witness :
    (Dtype.float64 ≠ Dtype.float32 ∨ Dtype.float64 ≠ Dtype.float32 ∨
      Dtype.float64 ≠ Dtype.float32) ∧
    ((∃ e, (EvaluateRegistration ⟨[⟨0, 0, 0⟩], Device.cpu, Dtype.float64⟩
        ⟨[⟨0, 0, 0⟩], Device.cpu, Dtype.float64⟩ 1
        ⟨[4, 4], Device.cpu, Dtype.float64, idMat4⟩).1 = Except.error e) ∧
      (∃ e, (RegistrationICP ⟨[⟨0, 0, 0⟩], Device.cpu, Dtype.float64⟩
        ⟨[⟨0, 0, 0⟩], Device.cpu, Dtype.float64⟩ 1
        ⟨[4, 4], Device.cpu, Dtype.float64, idMat4⟩ wEst ⟨1, 1, 1⟩).1 = Except.error e)) :=
  ⟨by decide,
    float32_precision_required ⟨[⟨0, 0, 0⟩], Device.cpu, Dtype.float64⟩
      ⟨[⟨0, 0, 0⟩], Device.cpu, Dtype.float64⟩ 1
      ⟨[4, 4], Device.cpu, Dtype.float64, idMat4⟩ wEst ⟨1, 1, 1⟩ (by decide)⟩



/-- Positions (ascending) of the true entries of a boolean mask. -/
def truePositions : List Bool → List Nat
  | [] => []
  | b :: bs =>
    if b then 0 :: (truePositions bs).map (· + 1) else (truePositions bs).map (· + 1)

/-- Gathering with a boolean mask (`IndexGet`) keeps one element per true
mask entry. -/
theorem length_filter_eq_count_true {α : Type} (p : α → Bool) :
    ∀ l : List α, (l.filter p).length = (l.map p).count true := by
  intro l
  induction l with
  | nil => rfl
  | cons x xs ih =>
    cases hp : p x <;> simp [hp, ih]

/-- Gathering with a boolean mask (`IndexGet`) produces exactly the images
of the elements sitting at the true positions of the mask, in order. -/
theorem filter_map_eq_truePositions {α β : Type} (p : α → Bool) (f : α → β) (d0 : α) :
    ∀ l : List α,
      (l.filter p).map f = (truePositions (l.map p)).map (fun j => f (l.getD j d0)) := by
  intro l
  induction l with
  | nil => rfl
  | cons x xs ih =>
    cases hp : p x
    · simp [hp, truePositions, List.map_map, Function.comp, List.getD_cons_succ, ih]
    · simp [hp, truePositions, List.map_map, Function.comp, List.getD_cons_succ,
        List.getD_cons_zero, ih]

/-- The true positions of a mask are strictly ascending. -/
theorem truePositions_pairwise : ∀ m : List Bool, List.Pairwise (· < ·) (truePositions m) := by
  intro m
  induction m with
  | nil => exact List.Pairwise.nil
  | cons b bs ih =>
    cases b
    · simpa [truePositions, List.pairwise_map] using ih
    · simp only [truePositions, if_true]
      refine List.Pairwise.cons ?_ ?_
      · intro x hx
        simp only [List.mem_map] at hx
        obtain ⟨y, -, rfl⟩ := hx
        omega
      · simpa [List.pairwise_map] using ih

/-- An all-false mask has no true positions. -/
theorem truePositions_replicate_false (n : Nat) :
    truePositions (List.replicate n false) = [] := by
  induction n with
  | zero => rfl
  | succ k ih => simp [List.replicate_succ, truePositions, ih]

/-- A successful checked evaluator call returns exactly the hybrid body
result. -/
theorem evaluator_ok {source target : PointCloud} {maxDist : ℚ} {t : CoreTensor}
    {r : RegistrationResult}
    (h : (GetCorrespondencesFromHybridSearch source target maxDist t).1 = Except.ok r) :
    r = (hybridCore source target maxDist t).1 := by
  unfold GetCorrespondencesFromHybridSearch at h
  cases hc : checkInputs source target t with
  | none => rw [hc] at h; simpa using h.symm
  | some e => rw [hc] at h; simp at h

/-- C8: every result of a correspondence evaluation satisfies the
correspondence invariants: as many indices as true mask entries, one mask
entry per source point, strictly ascending matched source positions, and
the i-th index is the hybrid-search target index of the source point at the
i-th true mask entry. -/
theorem hybrid_result_invariants (source target : PointCloud) (maxDist : ℚ)
    (t : CoreTensor) (r : RegistrationResult)
    (h : (GetCorrespondencesFromHybridSearch source target maxDist t).1 = Except.ok r) :
    r.correspondence_set.length = r.correspondence_select_bool.count true ∧
    r.correspondence_select_bool.length = source.points.length ∧
    List.Pairwise (· < ·) (truePositions r.correspondence_select_bool) ∧
    r.correspondence_set = (truePositions r.correspondence_select_bool).map
      (fun j => ((hybridNNs source.points target.points (maxDist * maxDist)).getD j (-1, 0)).1) := by
  have hr := evaluator_ok h
  subst hr
  unfold hybridCore
  by_cases hd : maxDist ≤ 0
  · rw [if_pos hd]
    refine ⟨?_, ?_, ?_, ?_⟩
    · simp [RegistrationResult.init, List.count_replicate]
    · simp [RegistrationResult.init]
    · simp [RegistrationResult.init, truePositions_replicate_false]
    · simp [RegistrationResult.init, truePositions_replicate_false]
  · rw [if_neg hd]
    refine ⟨?_, ?_, ?_, ?_⟩
    · simpa [hybridSet, hybridMask] using
        length_filter_eq_count_true (fun x : ℤ × ℚ => decide (x.1 ≠ -1))
          (hybridNNs source.points target.points (maxDist * maxDist))
    · simp [hybridMask, hybridNNs]
    · exact truePositions_pairwise _
    · simpa [hybridSet, hybridMask] using
        filter_map_eq_truePositions (fun x : ℤ × ℚ => decide (x.1 ≠ -1))
          (fun x : ℤ × ℚ => x.1) (-1, 0)
          (hybridNNs source.points target.points (maxDist * maxDist))

theorem hybrid_result_invariants_witness :
    (GetCorrespondencesFromHybridSearch wSrc wTgt 1 wT).1 =
        Except.ok
          { transformation := wT
            correspondence_select_bool := [true]
            correspondence_set := [0]
            fitness := some 1
            inlier_rmse_sq := some 0 } ∧
    (([0] : List ℤ).length = ([true] : List Bool).count true ∧
      ([true] : List Bool).length = wSrc.points.length ∧
      List.Pairwise (· < ·) (truePositions [true]) ∧
      ([0] : List ℤ) = (truePositions [true]).map
        (fun j => ((hybridNNs wSrc.points wTgt.points (1 * 1)).getD j (-1, 0)).1)) := by
  have h : (GetCorrespondencesFromHybridSearch wSrc wTgt 1 wT).1 =
      Except.ok
        { transformation := wT
          correspondence_select_bool := [true]
          correspondence_set := [0]
          fitness := some 1
          inlier_rmse_sq := some 0 } := by
    norm_num [GetCorrespondencesFromHybridSearch, checkInputs, hybridCore, hybridMask,
      hybridSet, hybridSqError, hybridNNs, hybridSearchOne, nnSearchList, nnFrom, sqDist,
      wSrc, wTgt, wT]
  exact ⟨h, hybrid_result_invariants wSrc wTgt 1 wT _ h⟩



/-- Squared distances are nonnegative. -/
theorem sqDist_nonneg (p q : Pt) : 0 ≤ sqDist p q := by
  unfold sqDist
  have hx := mul_self_nonneg (p.x - q.x)
  have hy := mul_self_nonneg (p.y - q.y)
  have hz := mul_self_nonneg (p.z - q.z)
  linarith

/-- Any distance reported by the nearest-neighbor scan is nonnegative. -/
theorem nnFrom_nonneg (q : Pt) :
    ∀ (l : List Pt) (i0 j : Nat) (d : ℚ), nnFrom q i0 l = some (j, d) → 0 ≤ d := by
  intro l
  induction l with
  | nil => intro i0 j d h; simp [nnFrom] at h
  | cons p ps ih =>
    intro i0 j d h
    cases hrec : nnFrom q (i0 + 1) ps with
    | none =>
      simp only [nnFrom, hrec] at h
      simp only [Option.some.injEq, Prod.mk.injEq] at h
      rw [← h.2]
      exact sqDist_nonneg q p
    | some jd =>
      obtain ⟨j', dj⟩ := jd
      simp only [nnFrom, hrec] at h
      by_cases hle : sqDist q p ≤ dj
      · rw [if_pos hle] at h
        simp only [Option.some.injEq, Prod.mk.injEq] at h
        rw [← h.2]
        exact sqDist_nonneg q p
      · rw [if_neg hle] at h
        simp only [Option.some.injEq, Prod.mk.injEq] at h
        rw [← h.2]
        exact ih (i0 + 1) j' dj hrec

/-- The nearest-neighbor scan over a nonempty target always finds a point. -/
theorem nnFrom_cons_some (q p : Pt) (ps : List Pt) (i0 : Nat) :
    ∃ j d, nnFrom q i0 (p :: ps) = some (j, d) := by
  cases hrec : nnFrom q (i0 + 1) ps with
  | none => exact ⟨i0, sqDist q p, by simp only [nnFrom, hrec]⟩
  | some jd =>
    obtain ⟨j', dj⟩ := jd
    by_cases hle : sqDist q p ≤ dj
    · exact ⟨i0, sqDist q p, by simp only [nnFrom, hrec]; rw [if_pos hle]⟩
    · exact ⟨j', dj, by simp only [nnFrom, hrec]; rw [if_neg hle]⟩

/-- Pointwise agreement of the two strategies on a nonempty target and a
positive linear cutoff: a source point is accepted by the KNN rule (linear
distance within the cutoff) exactly when the hybrid search at the squared
radius does not return the sentinel, and in that case the hybrid result is
the nearest-neighbor result itself. -/
theorem selection_pointwise (target : List Pt) (maxDist : ℚ) (hm : 0 < maxDist)
    (ht : target ≠ []) (q : Pt) :
    knnAccept (nnSearchList target q).2 maxDist =
      decide ((hybridSearchOne target (maxDist * maxDist) q).1 ≠ -1) ∧
    (knnAccept (nnSearchList target q).2 maxDist = true →
      hybridSearchOne target (maxDist * maxDist) q = nnSearchList target q) := by
  obtain ⟨p, ps, rfl⟩ := List.exists_cons_of_ne_nil ht
  obtain ⟨j, d, hnn⟩ := nnFrom_cons_some q p ps 0
  have hsearch : nnSearchList (p :: ps) q = ((j : ℤ), d) := by
    unfold nnSearchList
    rw [hnn]
  have hd0 : (0 : ℤ) ≤ (j : ℤ) := Int.natCast_nonneg j
  have hne : ((j : ℤ)) ≠ -1 := by omega
  rw [hsearch]
  unfold hybridSearchOne
  rw [hsearch]
  by_cases hle : d ≤ maxDist * maxDist
  · rw [if_pos ⟨hne, hle⟩]
    constructor
    · simp [knnAccept, hle, hne, le_of_lt hm]
    · intro _; rfl
  · rw [if_neg (by intro hc; exact hle hc.2)]
    constructor
    · simp [knnAccept, hle]
    · intro hacc
      simp [knnAccept, hle] at hacc

/-- C2: over the same source and target data, for a positive linear cutoff,
the exact-nearest strategy (accept where the linear distance is within the
cutoff) and the radius strategy at the squared threshold (accept where the
sentinel was not returned) produce the same correspondence mask and the
same target indices. -/
theorem knn_hybrid_same_selection (source target : List Pt) (maxDist : ℚ)
    (hm : 0 < maxDist) (ht : target ≠ []) :
    knnMask source target maxDist = hybridMask source target (maxDist * maxDist) ∧
    knnSet source target maxDist = hybridSet source target (maxDist * maxDist) := by
  induction source with
  | nil => exact ⟨rfl, rfl⟩
  | cons q qs ih =>
    obtain ⟨hmask, hset⟩ := ih
    obtain ⟨hpt, hval⟩ := selection_pointwise target maxDist hm ht q
    have hrhs : decide ((hybridSearchOne target (maxDist * maxDist) q).1 ≠ -1) =
        knnAccept (nnSearchList target q).2 maxDist := hpt.symm
    constructor
    · simp only [knnMask, knnNNs, hybridMask, hybridNNs, List.map_cons, List.map_map] at hmask ⊢
      rw [hpt, hmask]
    · simp only [knnSet, knnNNs, hybridSet, hybridNNs, List.map_cons, List.filter_cons] at hset ⊢
      by_cases hacc : knnAccept (nnSearchList target q).2 maxDist = true
      · rw [hacc] at hrhs
        simp only [hacc, hrhs, if_true, List.map_cons]
        rw [hval hacc]
        rw [hset]
      · rw [Bool.not_eq_true] at hacc
        rw [hacc] at hrhs
        simp only [hacc, hrhs, Bool.false_eq_true, if_false]
        exact hset

theorem knn_hybrid_same_selection_witness :
    ((0 : ℚ) < 1 ∧ ([(⟨0, 0, 0⟩ : Pt)] : List Pt) ≠ []) ∧
    (knnMask [(⟨0, 0, 0⟩ : Pt)] [(⟨0, 0, 0⟩ : Pt)] 1 =
        hybridMask [(⟨0, 0, 0⟩ : Pt)] [(⟨0, 0, 0⟩ : Pt)] (1 * 1) ∧
      knnSet [(⟨0, 0, 0⟩ : Pt)] [(⟨0, 0, 0⟩ : Pt)] 1 =
        hybridSet [(⟨0, 0, 0⟩ : Pt)] [(⟨0, 0, 0⟩ : Pt)] (1 * 1)) :=
  ⟨⟨by norm_num, by simp⟩,
    knn_hybrid_same_selection [⟨0, 0, 0⟩] [⟨0, 0, 0⟩] 1 (by norm_num) (by simp)⟩



/-- Distances returned by the single-query search are nonnegative. -/
theorem nnSearchList_snd_nonneg (target : List Pt) (q : Pt) :
    0 ≤ (nnSearchList target q).2 := by
  unfold nnSearchList
  cases target with
  | nil => simp [nnFrom]
  | cons p ps =>
    obtain ⟨j, d, hnn⟩ := nnFrom_cons_some q p ps 0
    rw [hnn]
    exact nnFrom_nonneg q (p :: ps) 0 j d hnn

/-- Distances returned by the hybrid search are nonnegative. -/
theorem hybridSearchOne_snd_nonneg (target : List Pt) (radiusSq : ℚ) (q : Pt) :
    0 ≤ (hybridSearchOne target radiusSq q).2 := by
  unfold hybridSearchOne
  by_cases hc : (nnSearchList target q).1 ≠ -1 ∧ (nnSearchList target q).2 ≤ radiusSq
  · rw [if_pos hc]; exact nnSearchList_snd_nonneg target q
  · rw [if_neg hc]

/-- The selected squared-error sum is nonnegative. -/
theorem hybridSqError_nonneg (source target : List Pt) (radiusSq : ℚ) :
    0 ≤ hybridSqError source target radiusSq := by
  unfold hybridSqError
  refine List.sum_nonneg ?_
  intro x hx
  simp only [List.mem_map, List.mem_filter] at hx
  obtain ⟨y, ⟨hy, -⟩, rfl⟩ := hx
  simp only [hybridNNs, List.mem_map] at hy
  obtain ⟨q, -, rfl⟩ := hy
  exact hybridSearchOne_snd_nonneg target radiusSq q

/-- One mask entry per source point. -/
theorem hybridMask_length (source target : List Pt) (radiusSq : ℚ) :
    (hybridMask source target radiusSq).length = source.length := by
  simp [hybridMask, hybridNNs]

/-- Never more selected correspondences than source points. -/
theorem hybridSet_length_le (source target : List Pt) (radiusSq : ℚ) :
    (hybridSet source target radiusSq).length ≤ source.length := by
  simp only [hybridSet, List.length_map]
  calc ((hybridNNs source target radiusSq).filter (fun x => decide (x.1 ≠ -1))).length
      ≤ (hybridNNs source target radiusSq).length := List.length_filter_le _ _
    _ = source.length := by simp [hybridNNs]

/-- The result `r` has inlier RMSE `x`: the stored radicand (the model of
`squared_error / matched_count`) is a defined, non-NaN rational `q`, and `x`
is its nonnegative real square root, i.e. `x = sqrt(q)`. -/
def HasInlierRmse (r : RegistrationResult) (x : ℝ) : Prop :=
  0 ≤ x ∧ ∃ q : ℚ, r.inlier_rmse_sq = some q ∧ x ^ 2 = (q : ℝ)

/-- C5: an evaluator call with a positive threshold and at least one
selected correspondence reports `fitness = matched_count / source_count` and
`inlier_rmse = sqrt(selected squared-error sum / matched_count)`. -/
theorem evaluator_metrics_formula (source target : PointCloud) (maxDist : ℚ)
    (t : CoreTensor) (r : RegistrationResult)
    (h : (GetCorrespondencesFromHybridSearch source target maxDist t).1 = Except.ok r)
    (hd : 0 < maxDist) (hm : r.correspondence_set ≠ []) :
    r.fitness = some ((r.correspondence_set.length : ℚ) / (source.points.length : ℚ)) ∧
    HasInlierRmse r (Real.sqrt
      ((hybridSqError source.points target.points (maxDist * maxDist) /
        (r.correspondence_set.length : ℚ) : ℚ) : ℝ)) := by
  have hr := evaluator_ok h
  have hnle : ¬maxDist ≤ 0 := not_le.mpr hd
  rw [hr] at hm ⊢
  unfold hybridCore at hm ⊢
  rw [if_neg hnle] at hm ⊢
  simp only [] at hm ⊢
  have hsetlen : (hybridSet source.points target.points (maxDist * maxDist)).length ≠ 0 := by
    intro hzero
    exact hm (List.length_eq_zero.mp hzero)
  have hmasklen : (hybridMask source.points target.points (maxDist * maxDist)).length ≠ 0 := by
    rw [hybridMask_length]
    intro hzero
    apply hsetlen
    have := hybridSet_length_le source.points target.points (maxDist * maxDist)
    omega
  constructor
  · rw [if_neg hmasklen, hybridMask_length]
  · refine ⟨Real.sqrt_nonneg _, ?_⟩
    refine ⟨hybridSqError source.points target.points (maxDist * maxDist) /
      ((hybridSet source.points target.points (maxDist * maxDist)).length : ℚ), ?_, ?_⟩
    · rw [if_neg hsetlen]
    · refine Real.sq_sqrt ?_
      have hq : (0 : ℚ) ≤ hybridSqError source.points target.points (maxDist * maxDist) /
          ((hybridSet source.points target.points (maxDist * maxDist)).length : ℚ) := by
        apply div_nonneg (hybridSqError_nonneg _ _ _)
        exact_mod_cast Nat.zero_le _
      exact_mod_cast hq

theorem evaluator_metrics_formula_witness :
    ((GetCorrespondencesFromHybridSearch wSrc wTgt 1 wT).1 =
        Except.ok
          { transformation := wT
            correspondence_select_bool := [true]
            correspondence_set := [0]
            fitness := some 1
            inlier_rmse_sq := some 0 } ∧
      (0 : ℚ) < 1 ∧ ([(0 : ℤ)] : List ℤ) ≠ []) ∧
    ((some 1 : Option ℚ) =
        some ((([(0 : ℤ)] : List ℤ).length : ℚ) / ((wSrc.points.length : ℚ))) ∧
      HasInlierRmse
        { transformation := wT
          correspondence_select_bool := [true]
          correspondence_set := [0]
          fitness := some 1
          inlier_rmse_sq := some 0 }
        (Real.sqrt
          ((hybridSqError wSrc.points wTgt.points (1 * 1) /
            (([(0 : ℤ)] : List ℤ).length : ℚ) : ℚ) : ℝ))) := by
  have h : (GetCorrespondencesFromHybridSearch wSrc wTgt 1 wT).1 =
      Except.ok
        { transformation := wT
          correspondence_select_bool := [true]
          correspondence_set := [0]
          fitness := some 1
          inlier_rmse_sq := some 0 } := by
    norm_num [GetCorrespondencesFromHybridSearch, checkInputs, hybridCore, hybridMask,
      hybridSet, hybridSqError, hybridNNs, hybridSearchOne, nnSearchList, nnFrom, sqDist,
      wSrc, wTgt, wT]
  refine ⟨⟨h, by norm_num, by simp⟩, ?_⟩
  have := evaluator_metrics_formula wSrc wTgt 1 wT _ h (by norm_num) (by simp)
  simpa [wSrc] using this



/-- A successful wrapper call returns exactly the hybrid body result. -/
theorem grac_ok {s t : PointCloud} {d : ℚ} {tr : CoreTensor} {r : RegistrationResult}
    (h : (GetRegistrationResultAndCorrespondences s t d tr).1 = Except.ok r) :
    r = (hybridCore s t d tr).1 := by
  unfold GetRegistrationResultAndCorrespondences at h
  cases hc : checkInputs s t tr with
  | some e => rw [hc] at h; simp at h
  | none => rw [hc] at h; exact evaluator_ok h

/-- A successful iteration body carries a result produced by the hybrid
evaluator body (for the stepped source and transformation). -/
theorem icpStepE_ok_result {target : PointCloud} {maxDist : ℚ} {est : Estimator}
    {st st1 : ICPState} (h : icpStepE target maxDist est st = Except.ok st1) :
    ∃ s' t', st1.result = (hybridCore s' target maxDist t').1 := by
  simp only [icpStepE] at h
  cases hw : (GetRegistrationResultAndCorrespondences
      (transformPC (est st.src target
        (st.result.correspondence_select_bool, st.result.correspondence_set)) st.src)
      target maxDist
      (matmulT (est st.src target
        (st.result.correspondence_select_bool, st.result.correspondence_set))
        st.transformation)).1 with
  | error e => rw [hw] at h; simp at h
  | ok res =>
    rw [hw] at h
    simp only [Except.ok.injEq] at h
    refine ⟨transformPC (est st.src target
        (st.result.correspondence_select_bool, st.result.correspondence_set)) st.src,
      matmulT (est st.src target
        (st.result.correspondence_select_bool, st.result.correspondence_set))
        st.transformation, ?_⟩
    rw [← h]
    exact grac_ok hw

/-- Every result held by a state the loop returns is either the incoming
result or a hybrid evaluator body result. -/
theorem icpLoopE_result_provenance (target : PointCloud) (maxDist : ℚ) (est : Estimator)
    (crit : ICPConvergenceCriteria) :
    ∀ (fuel : Nat) (st st' : ICPState),
      icpLoopE target maxDist est crit fuel st = Except.ok st' →
      st'.result = st.result ∨
        ∃ s' t', st'.result = (hybridCore s' target maxDist t').1 := by
  intro fuel
  induction fuel with
  | zero =>
    intro st st' h
    left
    simp only [icpLoopE, Except.ok.injEq] at h
    rw [← h]
  | succ f ih =>
    intro st st' h
    unfold icpLoopE at h
    cases hstep : icpStepE target maxDist est st with
    | error e => rw [hstep] at h; simp at h
    | ok st1 =>
      rw [hstep] at h
      simp only [] at h
      by_cases hc : convergenceTest st.result st1.result crit
      · rw [if_pos hc] at h
        simp only [Except.ok.injEq] at h
        right
        rw [← h]
        exact icpStepE_ok_result hstep
      · rw [if_neg hc] at h
        rcases ih st1 st' h with heq | hprov
        · right
          rw [heq]
          exact icpStepE_ok_result hstep
        · right
          exact hprov

/-- Every result returned by a successful `RegistrationICP` run is a hybrid
evaluator body result for some source cloud and transformation tensor. -/
theorem registrationICP_ok_provenance {source target : PointCloud} {maxDist : ℚ}
    {init : CoreTensor} {est : Estimator} {crit : ICPConvergenceCriteria}
    {r : RegistrationResult}
    (h : (RegistrationICP source target maxDist init est crit).1 = Except.ok r) :
    ∃ s' t', r = (hybridCore s' target maxDist t').1 := by
  unfold RegistrationICP at h
  cases hc : checkInputsICP source target init with
  | some e => rw [hc] at h; simp at h
  | none =>
    rw [hc] at h
    simp only [] at h
    cases hw : (GetRegistrationResultAndCorrespondences (transformPC init.mat source) target
        maxDist init).1 with
    | error e => rw [hw] at h; simp at h
    | ok res0 =>
      rw [hw] at h
      simp only [] at h
      cases hloop : icpLoopE target maxDist est crit crit.max_iteration
          ⟨init, transformPC init.mat source, res0, 1, 0⟩ with
      | error e => rw [hloop] at h; simp at h
      | ok stF =>
        rw [hloop] at h
        simp only [Except.ok.injEq] at h
        rcases icpLoopE_result_provenance target maxDist est crit crit.max_iteration _ _
            hloop with heq | hprov
        · refine ⟨transformPC init.mat source, init, ?_⟩
          rw [← h, heq]
          exact grac_ok hw
        · obtain ⟨s', t', hst⟩ := hprov
          exact ⟨s', t', by rw [← h, hst]⟩

/-- Bounds on the metrics of a hybrid body result whenever its rmse division
is defined (a non-positive threshold, or at least one selected pair). -/
theorem hybridCore_metric_bounds (source target : PointCloud) (maxDist : ℚ) (t : CoreTensor)
    (h : maxDist ≤ 0 ∨ (hybridCore source target maxDist t).1.correspondence_set ≠ []) :
    (∃ f, (hybridCore source target maxDist t).1.fitness = some f ∧ 0 ≤ f ∧ f ≤ 1) ∧
    (∃ q, (hybridCore source target maxDist t).1.inlier_rmse_sq = some q ∧ 0 ≤ q) := by
  by_cases hd : maxDist ≤ 0
  · unfold hybridCore
    rw [if_pos hd]
    exact ⟨⟨0, rfl, le_refl 0, zero_le_one⟩, ⟨0, rfl, le_refl 0⟩⟩
  · have hm : (hybridCore source target maxDist t).1.correspondence_set ≠ [] := by
      rcases h with h | h
      · exact absurd h hd
      · exact h
    unfold hybridCore at hm ⊢
    rw [if_neg hd] at hm ⊢
    simp only [] at hm ⊢
    have hsetlen : (hybridSet source.points target.points (maxDist * maxDist)).length ≠ 0 := by
      intro hzero
      exact hm (List.length_eq_zero.mp hzero)
    have hmaskpos : 0 < (hybridMask source.points target.points (maxDist * maxDist)).length := by
      rw [hybridMask_length]
      have := hybridSet_length_le source.points target.points (maxDist * maxDist)
      omega
    constructor
    · refine ⟨((hybridSet source.points target.points (maxDist * maxDist)).length : ℚ) /
        ((hybridMask source.points target.points (maxDist * maxDist)).length : ℚ), ?_, ?_, ?_⟩
      · rw [if_neg (by omega)]
      · apply div_nonneg
        · exact_mod_cast Nat.zero_le _
        · exact_mod_cast Nat.zero_le _
      · rw [div_le_one (by exact_mod_cast hmaskpos)]
        have hle : (hybridSet source.points target.points (maxDist * maxDist)).length ≤
            (hybridMask source.points target.points (maxDist * maxDist)).length := by
          rw [hybridMask_length]
          exact hybridSet_length_le source.points target.points (maxDist * maxDist)
        exact_mod_cast hle
    · refine ⟨hybridSqError source.points target.points (maxDist * maxDist) /
        ((hybridSet source.points target.points (maxDist * maxDist)).length : ℚ), ?_, ?_⟩
      · rw [if_neg hsetlen]
      · apply div_nonneg (hybridSqError_nonneg _ _ _)
        exact_mod_cast Nat.zero_le _

/-- C4 (amended): metric bounds hold for every evaluator or `RegistrationICP`
result whose rmse division is defined — the threshold is non-positive (the
degenerate path) or at least one correspondence was selected. With a
positive threshold and zero selected pairs the rmse is the undefined NaN
division (see the counterexample). -/
theorem metrics_bounds_amended :
    (∀ (source target : PointCloud) (maxDist : ℚ) (t : CoreTensor) (r : RegistrationResult),
      (GetCorrespondencesFromHybridSearch source target maxDist t).1 = Except.ok r →
      maxDist ≤ 0 ∨ r.correspondence_set ≠ [] →
      (∃ f, r.fitness = some f ∧ 0 ≤ f ∧ f ≤ 1) ∧
      (∃ q, r.inlier_rmse_sq = some q ∧ 0 ≤ q)) ∧
    (∀ (source target : PointCloud) (maxDist : ℚ) (init : CoreTensor) (est : Estimator)
      (crit : ICPConvergenceCriteria) (r : RegistrationResult),
      (RegistrationICP source target maxDist init est crit).1 = Except.ok r →
      maxDist ≤ 0 ∨ r.correspondence_set ≠ [] →
      (∃ f, r.fitness = some f ∧ 0 ≤ f ∧ f ≤ 1) ∧
      (∃ q, r.inlier_rmse_sq = some q ∧ 0 ≤ q)) := by
  constructor
  · intro source target maxDist t r h hdef
    have hr := evaluator_ok h
    rw [hr] at hdef ⊢
    exact hybridCore_metric_bounds source target maxDist t hdef
  · intro source target maxDist init est crit r h hdef
    obtain ⟨s', t', hr⟩ := registrationICP_ok_provenance h
    rw [hr] at hdef ⊢
    exact hybridCore_metric_bounds s' target maxDist t' hdef

theorem metrics_bounds_amended_witness :
    ((GetCorrespondencesFromHybridSearch wSrc wTgt 1 wT).1 =
        Except.ok
          { transformation := wT
            correspondence_select_bool := [true]
            correspondence_set := [0]
            fitness := some 1
            inlier_rmse_sq := some 0 } ∧
      ([(0 : ℤ)] : List ℤ) ≠ []) ∧
    ((∃ f, (some 1 : Option ℚ) = some f ∧ 0 ≤ f ∧ f ≤ 1) ∧
      (∃ q, (some 0 : Option ℚ) = some q ∧ 0 ≤ q)) := by
  have h : (GetCorrespondencesFromHybridSearch wSrc wTgt 1 wT).1 =
      Except.ok
        { transformation := wT
          correspondence_select_bool := [true]
          correspondence_set := [0]
          fitness := some 1
          inlier_rmse_sq := some 0 } := by
    norm_num [GetCorrespondencesFromHybridSearch, checkInputs, hybridCore, hybridMask,
      hybridSet, hybridSqError, hybridNNs, hybridSearchOne, nnSearchList, nnFrom, sqDist,
      wSrc, wTgt, wT]
  refine ⟨⟨h, by simp⟩, ?_⟩
  exact metrics_bounds_amended.1 wSrc wTgt 1 wT _ h (Or.inr (by simp))

/-- C4 (counterexample): with a positive threshold and no target point in
range, the evaluator selects nothing: the run succeeds and the returned
inlier rmse is the NaN marker `none` — the undefined `0.0f / 0.0f` of the
source — so the rmse is not a (nonnegative) defined value at this input,
refuting the claim for zero matched count. -/
theorem metrics_bounds_counterexample :
    (EvaluateRegistration wSrc wTgtFar 1 wT).1 =
      Except.ok
        { transformation := wT
          correspondence_select_bool := [false]
          correspondence_set := []
          fitness := some 0
          inlier_rmse_sq := none } ∧
    ¬∃ q : ℚ,
      (RegistrationResult.mk wT [false] [] (some 0) none).inlier_rmse_sq = some q ∧ 0 ≤ q := by
  constructor
  · norm_num [EvaluateRegistration, GetRegistrationResultAndCorrespondences,
      GetCorrespondencesFromHybridSearch, checkInputs, hybridCore, hybridMask, hybridSet,
      hybridSqError, hybridNNs, hybridSearchOne, nnSearchList, nnFrom, sqDist, transformPC,
      transformPt, idMat4, wSrc, wTgtFar, wT]
  · rintro ⟨q, hq, -⟩
    simp at hq



/-- Soundness of the exact comparison behind the rmse convergence delta:
for nonnegative radicands it decides precisely `sqrt a < sqrt b + t`. -/
theorem sqrtLtAdd_correct (a b t : ℚ) (ha : 0 ≤ a) (hb : 0 ≤ b) :
    sqrtLtAdd a b t = true ↔ Real.sqrt (a : ℝ) < Real.sqrt (b : ℝ) + (t : ℝ) := by
  have ha' : (0 : ℝ) ≤ (a : ℝ) := by exact_mod_cast ha
  have hb' : (0 : ℝ) ≤ (b : ℝ) := by exact_mod_cast hb
  have hA2 : Real.sqrt (a : ℝ) ^ 2 = (a : ℝ) := Real.sq_sqrt ha'
  have hB2 : Real.sqrt (b : ℝ) ^ 2 = (b : ℝ) := Real.sq_sqrt hb'
  have hA0 : 0 ≤ Real.sqrt (a : ℝ) := Real.sqrt_nonneg _
  have hB0 : 0 ≤ Real.sqrt (b : ℝ) := Real.sqrt_nonneg _
  unfold sqrtLtAdd
  split_ifs with ht hlt
  · -- 0 ≤ t and a - b - t*t < 0
    simp only [true_iff]
    have ht' : (0 : ℝ) ≤ (t : ℝ) := by exact_mod_cast ht
    have hlt' : (a : ℝ) - (b : ℝ) - (t : ℝ) * (t : ℝ) < 0 := by exact_mod_cast hlt
    nlinarith [mul_nonneg hB0 ht', sq_nonneg (Real.sqrt (a : ℝ) - (Real.sqrt (b : ℝ) + (t : ℝ)))]
  · -- 0 ≤ t and a - b - t*t ≥ 0
    have ht' : (0 : ℝ) ≤ (t : ℝ) := by exact_mod_cast ht
    have hge : (0 : ℝ) ≤ (a : ℝ) - (b : ℝ) - (t : ℝ) * (t : ℝ) := by
      have := not_lt.mp hlt
      exact_mod_cast this
    rw [decide_eq_true_eq]
    constructor
    · intro h
      have h' : ((a : ℝ) - (b : ℝ) - (t : ℝ) * (t : ℝ)) *
          ((a : ℝ) - (b : ℝ) - (t : ℝ) * (t : ℝ)) < 4 * ((t : ℝ) * (t : ℝ)) * (b : ℝ) := by
        exact_mod_cast h
      by_contra hc
      push_neg at hc
      have h1 : (Real.sqrt (b : ℝ) + (t : ℝ)) * (Real.sqrt (b : ℝ) + (t : ℝ)) ≤
          Real.sqrt (a : ℝ) * Real.sqrt (a : ℝ) :=
        mul_self_le_mul_self (by positivity) hc
      have h2 : 2 * Real.sqrt (b : ℝ) * (t : ℝ) ≤ (a : ℝ) - (b : ℝ) - (t : ℝ) * (t : ℝ) := by
        nlinarith [hA2, hB2, h1]
      have h3 : (2 * Real.sqrt (b : ℝ) * (t : ℝ)) * (2 * Real.sqrt (b : ℝ) * (t : ℝ)) ≤
          ((a : ℝ) - (b : ℝ) - (t : ℝ) * (t : ℝ)) *
            ((a : ℝ) - (b : ℝ) - (t : ℝ) * (t : ℝ)) :=
        mul_self_le_mul_self (by positivity) h2
      nlinarith [h3, hB2, h']
    · intro h
      have h1 : Real.sqrt (a : ℝ) * Real.sqrt (a : ℝ) <
          (Real.sqrt (b : ℝ) + (t : ℝ)) * (Real.sqrt (b : ℝ) + (t : ℝ)) :=
        mul_self_lt_mul_self hA0 h
      have h2 : (a : ℝ) - (b : ℝ) - (t : ℝ) * (t : ℝ) < 2 * Real.sqrt (b : ℝ) * (t : ℝ) := by
        nlinarith [hA2, hB2, h1]
      have h3 : ((a : ℝ) - (b : ℝ) - (t : ℝ) * (t : ℝ)) *
          ((a : ℝ) - (b : ℝ) - (t : ℝ) * (t : ℝ)) <
          (2 * Real.sqrt (b : ℝ) * (t : ℝ)) * (2 * Real.sqrt (b : ℝ) * (t : ℝ)) :=
        mul_self_lt_mul_self hge h2
      have h4 : ((a : ℝ) - (b : ℝ) - (t : ℝ) * (t : ℝ)) *
          ((a : ℝ) - (b : ℝ) - (t : ℝ) * (t : ℝ)) < 4 * ((t : ℝ) * (t : ℝ)) * (b : ℝ) := by
        nlinarith [h3, hB2]
      exact_mod_cast h4
  · -- t < 0
    have ht' : (t : ℝ) < 0 := by exact_mod_cast not_le.mp ht
    rw [Bool.and_eq_true, decide_eq_true_eq, decide_eq_true_eq]
    have htn : (0 : ℝ) ≤ -(t : ℝ) := by linarith
    constructor
    · rintro ⟨hD, hsq⟩
      have hD' : (0 : ℝ) < (b : ℝ) - (a : ℝ) - (t : ℝ) * (t : ℝ) := by exact_mod_cast hD
      have hsq' : 4 * ((t : ℝ) * (t : ℝ)) * (a : ℝ) <
          ((b : ℝ) - (a : ℝ) - (t : ℝ) * (t : ℝ)) *
            ((b : ℝ) - (a : ℝ) - (t : ℝ) * (t : ℝ)) := by exact_mod_cast hsq
      by_contra hc
      push_neg at hc
      have h1 : Real.sqrt (b : ℝ) * Real.sqrt (b : ℝ) ≤
          (Real.sqrt (a : ℝ) - (t : ℝ)) * (Real.sqrt (a : ℝ) - (t : ℝ)) :=
        mul_self_le_mul_self hB0 (by linarith)
      have h2 : (b : ℝ) - (a : ℝ) - (t : ℝ) * (t : ℝ) ≤
          2 * (-(t : ℝ)) * Real.sqrt (a : ℝ) := by
        nlinarith [hA2, hB2, h1]
      have h3 : ((b : ℝ) - (a : ℝ) - (t : ℝ) * (t : ℝ)) *
          ((b : ℝ) - (a : ℝ) - (t : ℝ) * (t : ℝ)) ≤
          (2 * (-(t : ℝ)) * Real.sqrt (a : ℝ)) * (2 * (-(t : ℝ)) * Real.sqrt (a : ℝ)) :=
        mul_self_le_mul_self (le_of_lt hD') h2
      nlinarith [h3, hA2, hsq']
    · intro h
      have hpos : 0 < Real.sqrt (a : ℝ) - (t : ℝ) := by linarith
      have h1 : (Real.sqrt (a : ℝ) - (t : ℝ)) * (Real.sqrt (a : ℝ) - (t : ℝ)) <
          Real.sqrt (b : ℝ) * Real.sqrt (b : ℝ) :=
        mul_self_lt_mul_self (le_of_lt hpos) (by linarith)
      have h2 : 2 * (-(t : ℝ)) * Real.sqrt (a : ℝ) <
          (b : ℝ) - (a : ℝ) - (t : ℝ) * (t : ℝ) := by
        nlinarith [hA2, hB2, h1]
      have hprod : (0 : ℝ) ≤ 2 * (-(t : ℝ)) * Real.sqrt (a : ℝ) := by
        apply mul_nonneg (mul_nonneg (by norm_num) htn) hA0
      have hD' : (0 : ℝ) < (b : ℝ) - (a : ℝ) - (t : ℝ) * (t : ℝ) :=
        lt_of_le_of_lt hprod h2
      have h3 : (2 * (-(t : ℝ)) * Real.sqrt (a : ℝ)) * (2 * (-(t : ℝ)) * Real.sqrt (a : ℝ)) <
          ((b : ℝ) - (a : ℝ) - (t : ℝ) * (t : ℝ)) *
            ((b : ℝ) - (a : ℝ) - (t : ℝ) * (t : ℝ)) :=
        mul_self_lt_mul_self hprod h2
      have hsq' : 4 * ((t : ℝ) * (t : ℝ)) * (a : ℝ) <
          ((b : ℝ) - (a : ℝ) - (t : ℝ) * (t : ℝ)) *
            ((b : ℝ) - (a : ℝ) - (t : ℝ) * (t : ℝ)) := by
        nlinarith [h3, hA2]
      exact ⟨by exact_mod_cast hD', by exact_mod_cast hsq'⟩

/-- Soundness of the rmse convergence delta: for nonnegative radicands it
decides precisely `|sqrt a - sqrt b| < t`, the float comparison of the two
rmse values the loop performs. -/
theorem absSqrtDiffLt_correct (a b t : ℚ) (ha : 0 ≤ a) (hb : 0 ≤ b) :
    absSqrtDiffLt a b t = true ↔
      |Real.sqrt (a : ℝ) - Real.sqrt (b : ℝ)| < (t : ℝ) := by
  rw [absSqrtDiffLt, Bool.and_eq_true, sqrtLtAdd_correct a b t ha hb,
    sqrtLtAdd_correct b a t hb ha, abs_sub_lt_iff]
  constructor
  · rintro ⟨h1, h2⟩
    exact ⟨by linarith, by linarith⟩
  · rintro ⟨h1, h2⟩
    exact ⟨by linarith, by linarith⟩


end Open3D
